import Mathlib

/-!
Shallow embedding of `htcache` (`src/main.rs`): a single-node in-memory
key/value cache with HTTP interface. We embed the `service` module
(`CacheRecord`, `CacheService`), the wire-level byte handling of the PUT
filter (`String::from_utf8(..).expect(..)`), and the hashing scheme
(`std::collections::hash_map::DefaultHasher`, i.e. SipHash-1-3 with key
`(0, 0)`; `Hash for str` feeds the UTF-8 bytes of the string followed by a
`0xFF` terminator byte).

Timestamps (`chrono::DateTime<Utc>`) are modelled as `Int` seconds; the
`u32` TTL is a `Nat`; `Duration::seconds(ttl as i64)` is the coercion
`(ttl : Int)`; `chrono` comparisons keep their strictness. `HashMap<u64,
CacheRecord>` is modelled extensionally as a function `Nat → Option
CacheRecord` whose domain is the `u64` hash values; `HashMap::insert`
replaces, `HashMap::retain` filters, `shrink_to` only changes the backing
allocation and so is invisible in this model.
-/

namespace HTCache

/-- Little-endian word value of a byte list (first byte least significant). -/
def leWord (bs : List Nat) : Nat :=
  bs.foldr (fun b acc => b + 256 * acc) 0

/-- The four 64-bit SipHash state registers. -/
structure SipState where
  v0 : Nat
  v1 : Nat
  v2 : Nat
  v3 : Nat

/-- 64-bit rotate left (on values `< 2^64`). -/
def rotl64 (x r : Nat) : Nat :=
  ((x <<< r) % 2 ^ 64) ||| (x >>> (64 - r))

/-- One SipHash round (the `compress!` of Rust's `sip.rs`), with 64-bit
wrapping additions made explicit. -/
def sipround (s : SipState) : SipState :=
  let v0 := (s.v0 + s.v1) % 2 ^ 64
  let v1 := rotl64 s.v1 13
  let v1 := v1 ^^^ v0
  let v0 := rotl64 v0 32
  let v2 := (s.v2 + s.v3) % 2 ^ 64
  let v3 := rotl64 s.v3 16
  let v3 := v3 ^^^ v2
  let v0 := (v0 + v3) % 2 ^ 64
  let v3 := rotl64 v3 21
  let v3 := v3 ^^^ v0
  let v2 := (v2 + v1) % 2 ^ 64
  let v1 := rotl64 v1 17
  let v1 := v1 ^^^ v2
  let v2 := rotl64 v2 32
  ⟨v0, v1, v2, v3⟩

/-- Absorb one 8-byte message word: `v3 ^= m`, one round (SipHash-1-3 has
`C_ROUNDS = 1`), `v0 ^= m`. -/
def sipCompress (s : SipState) (m : Nat) : SipState :=
  let s := { s with v3 := s.v3 ^^^ m }
  let s := sipround s
  { s with v0 := s.v0 ^^^ m }

/-- Absorb all full 8-byte blocks of the message, returning the final state
and the remaining tail (`< 8` bytes). -/
def sipBlocks : SipState → List Nat → SipState × List Nat
  | s, b0 :: b1 :: b2 :: b3 :: b4 :: b5 :: b6 :: b7 :: rest =>
      sipBlocks (sipCompress s (leWord [b0, b1, b2, b3, b4, b5, b6, b7])) rest
  | s, tail => (s, tail)

/-- SipHash-1-3 core: Rust's `SipHasher13` over the whole byte message
(initial constants xor-ed with the key, blocks, length-tagged final word,
`v2 ^= 0xFF`, three finalization rounds, xor of the registers). -/
def siphash13Core (k0 k1 : Nat) (msg : List Nat) : Nat :=
  let s0 : SipState :=
    ⟨0x736f6d6570736575 ^^^ k0, 0x646f72616e646f6d ^^^ k1,
     0x6c7967656e657261 ^^^ k0, 0x7465646279746573 ^^^ k1⟩
  let st := sipBlocks s0 msg
  let b := ((msg.length % 256) <<< 56) ||| leWord st.2
  let s := sipCompress st.1 b
  let s := { s with v2 := s.v2 ^^^ 0xFF }
  let s := sipround (sipround (sipround s))
  s.v0 ^^^ s.v1 ^^^ s.v2 ^^^ s.v3

/-- SipHash-1-3 as a `u64` value. -/
def siphash13 (k0 k1 : Nat) (msg : List Nat) : Nat :=
  siphash13Core k0 k1 msg % 2 ^ 64

/-- UTF-8 encoding of a single code point (Rust's `char` encoding; code
points are valid by construction of `Char`). -/
def utf8EncodeChar (c : Nat) : List Nat :=
  if c < 0x80 then [c]
  else if c < 0x800 then
    [0xC0 ||| (c >>> 6), 0x80 ||| (c &&& 0x3F)]
  else if c < 0x10000 then
    [0xE0 ||| (c >>> 12), 0x80 ||| ((c >>> 6) &&& 0x3F), 0x80 ||| (c &&& 0x3F)]
  else
    [0xF0 ||| (c >>> 18), 0x80 ||| ((c >>> 12) &&& 0x3F),
     0x80 ||| ((c >>> 6) &&& 0x3F), 0x80 ||| (c &&& 0x3F)]

/-- The UTF-8 bytes of a string: Rust's `str::as_bytes`. -/
def strBytes (s : String) : List Nat :=
  s.data.flatMap fun c => utf8EncodeChar c.toNat

/-- A UTF-8 continuation byte (`0x80 ..= 0xBF`). -/
def utf8Cont (b : Nat) : Bool :=
  0x80 ≤ b && b ≤ 0xBF

/-- UTF-8 decoding of a byte list into code points, with exactly the
acceptance set of Rust's `String::from_utf8` (rejecting overlong forms,
surrogates and code points above `0x10FFFF`); `none` is a
`FromUtf8Error`. -/
def utf8Decode : List Nat → Option (List Nat)
  | [] => some []
  | b :: rest =>
    if b ≤ 0x7F then
      (utf8Decode rest).map (b :: ·)
    else if 0xC2 ≤ b && b ≤ 0xDF then
      match rest with
      | c1 :: r =>
        if utf8Cont c1 then
          (utf8Decode r).map ((((b &&& 0x1F) <<< 6) ||| (c1 &&& 0x3F)) :: ·)
        else none
      | [] => none
    else if 0xE0 ≤ b && b ≤ 0xEF then
      match rest with
      | c1 :: c2 :: r =>
        let ok1 :=
          if b = 0xE0 then 0xA0 ≤ c1 && c1 ≤ 0xBF
          else if b = 0xED then 0x80 ≤ c1 && c1 ≤ 0x9F
          else utf8Cont c1
        if ok1 && utf8Cont c2 then
          (utf8Decode r).map
            ((((b &&& 0x0F) <<< 12) ||| ((c1 &&& 0x3F) <<< 6) ||| (c2 &&& 0x3F)) :: ·)
        else none
      | _ => none
    else if 0xF0 ≤ b && b ≤ 0xF4 then
      match rest with
      | c1 :: c2 :: c3 :: r =>
        let ok1 :=
          if b = 0xF0 then 0x90 ≤ c1 && c1 ≤ 0xBF
          else if b = 0xF4 then 0x80 ≤ c1 && c1 ≤ 0x8F
          else utf8Cont c1
        if ok1 && utf8Cont c2 && utf8Cont c3 then
          (utf8Decode r).map
            ((((b &&& 0x07) <<< 18) ||| ((c1 &&& 0x3F) <<< 12) |||
              ((c2 &&& 0x3F) <<< 6) ||| (c3 &&& 0x3F)) :: ·)
        else none
      | _ => none
    else none

/-- `String::from_utf8` on a byte vector: `none` models the `Err` case. -/
def fromUtf8 (bytes : List Nat) : Option String :=
  (utf8Decode bytes).map fun cps => String.mk (cps.map Char.ofNat)

/-- `service::CacheRecord`. -/
structure CacheRecord where
  created : Int
  expires : Option Nat
  content : String
  content_type : Option String
deriving DecidableEq

namespace CacheRecord

/-- `CacheRecord::is_expired`: `self.expires.map_or(false, |ttl| (self.created
+ Duration::seconds(ttl as i64)) < Utc::now())`, with `now` passed in. -/
def is_expired (r : CacheRecord) (now : Int) : Bool :=
  r.expires.elim false fun ttl => decide (r.created + (ttl : Int) < now)

/-- `CacheRecord::get`: `either!(self.is_expired(), None, Some(&self.content))`. -/
def get (r : CacheRecord) (now : Int) : Option String :=
  if r.is_expired now then none else some r.content

/-- `CacheRecord::get_content_type`. -/
def get_content_type (r : CacheRecord) : Option String :=
  r.content_type

/-- `CacheRecord::get_age`: `(Utc::now() - self.created).num_seconds()`. -/
def get_age (r : CacheRecord) (now : Int) : Int :=
  now - r.created

end CacheRecord

/-- `service::CacheService`: the `HashMap<u64, CacheRecord>` is modelled
extensionally by its lookup function on hash values. -/
structure CacheService where
  storage : Nat → Option CacheRecord
  capacity : Nat

namespace CacheService

/-- `CacheService::new(capacity)`: `HashMap::with_capacity` starts empty. -/
def new (capacity : Nat) : CacheService :=
  ⟨fun _ => none, capacity⟩

/-- `CacheService::hash` at `T = &str`: `DefaultHasher` is SipHash-1-3 with
key `(0, 0)`, and `Hash for str` writes the string's UTF-8 bytes followed by
a single `0xFF` byte. -/
def hash (key : String) : Nat :=
  siphash13 0 0 (strBytes key ++ [0xFF])

/-- `CacheService::get`: `self.storage.get(&Self::hash(key))`. -/
def get (s : CacheService) (key : String) : Option CacheRecord :=
  s.storage (hash key)

/-- `CacheService::set`: `self.storage.insert(Self::hash(key), CacheRecord {
created: Utc::now(), expires: ttl, content: val.to_string(), content_type })`,
with the insertion instant `now` passed in. -/
def set (s : CacheService) (key val : String) (ttl : Option Nat)
    (content_type : Option String) (now : Int) : CacheService :=
  { s with
    storage := fun h =>
      if h = hash key then some ⟨now, ttl, val, content_type⟩ else s.storage h }

/-- `CacheService::gc`: `self.storage.retain(|_, record| !record.is_expired());
self.storage.shrink_to(self.capacity)` — `shrink_to` only affects the backing
allocation, never the entries, so the model keeps the filtered map. -/
def gc (s : CacheService) (now : Int) : CacheService :=
  { s with
    storage := fun h =>
      match s.storage h with
      | some r => if r.is_expired now then none else some r
      | none => none }

end CacheService

/-- `handlers::cache_get` composed with `filters::cache_get`, as a function
of the store: returns `(status, body, content-type header, age header)`.
The 404 branch has an empty body and no headers. -/
def cache_get (cache : CacheService) (name : String) (now : Int) :
    Nat × String × String × Int :=
  match cache.get name with
  | some record =>
    match record.get now with
    | some content =>
      (200, content, record.get_content_type.getD "text/plain", record.get_age now)
    | none => (404, "", "", 0)
  | none => (404, "", "", 0)

/-- `filters::cache_put` composed with `handlers::cache_put`: the filter maps
the raw body bytes through `String::from_utf8(bytes.to_vec()).expect("error
converting bytes to &str")` — a panic on invalid UTF-8, modelled as `none`;
on success the handler runs `set` and replies `201 Created`. -/
def cache_put (cache : CacheService) (name : String) (bodyBytes : List Nat)
    (content_type : Option String) (ttl : Option Nat) (now : Int) :
    Option (CacheService × Nat) :=
  match fromUtf8 bodyBytes with
  | none => none
  | some body => some (cache.set name body ttl content_type now, 201)

/-! ## General lemmas about the embedding -/

theorem siphash13_lt (k0 k1 : Nat) (msg : List Nat) : siphash13 k0 k1 msg < 2 ^ 64 :=
  Nat.mod_lt _ (by norm_num)

theorem hash_lt (key : String) : CacheService.hash key < 2 ^ 64 :=
  siphash13_lt 0 0 _

/-- When two keys have the same derived hash identifier, a `set` on the
second key lands on the first key's storage slot. -/
theorem get_set_set_collision (s : CacheService) (k1 k2 v1 v2 : String)
    (t1 t2 : Option Nat) (c1 c2 : Option String) (now1 now2 : Int)
    (h : CacheService.hash k1 = CacheService.hash k2) :
    ((s.set k1 v1 t1 c1 now1).set k2 v2 t2 c2 now2).get k1 =
      some ⟨now2, t2, v2, c2⟩ := by
  show (if CacheService.hash k1 = CacheService.hash k2 then
          some (⟨now2, t2, v2, c2⟩ : CacheRecord)
        else if CacheService.hash k1 = CacheService.hash k1 then
          some ⟨now1, t1, v1, c1⟩
        else s.storage (CacheService.hash k1)) = some ⟨now2, t2, v2, c2⟩
  rw [if_pos h]

/-- `gc` membership, as a shared lemma: an entry survives the sweep exactly
when it was present before and not expired at sweep time. -/
theorem gc_storage_mem (s : CacheService) (now : Int) (h : Nat) (r : CacheRecord) :
    (s.gc now).storage h = some r ↔
      (s.storage h = some r ∧ r.is_expired now = false) := by
  simp only [CacheService.gc]
  cases hs : s.storage h with
  | none => simp
  | some r0 =>
    show (if r0.is_expired now = true then none else some r0) = some r ↔
      some r0 = some r ∧ r.is_expired now = false
    by_cases he : r0.is_expired now = true
    · rw [if_pos he]
      constructor
      · intro hn
        exact Option.noConfusion hn
      · rintro ⟨hr, hf⟩
        have hr' : r0 = r := Option.some.inj hr
        subst hr'
        rw [he] at hf
        cases hf
    · rw [if_neg he]
      have he' : r0.is_expired now = false := by
        cases hb : r0.is_expired now
        · rfl
        · exact absurd hb he
      constructor
      · intro hr
        have hr' : r0 = r := Option.some.inj hr
        subst hr'
        exact ⟨hr, he'⟩
      · rintro ⟨hr, _⟩
        exact hr

/-! ## The claims -/

/-- Claim C1: a `CacheRecord` is expired at `now` iff its `ttl` (`expires`)
is present and `created + ttl < now`; a record without a `ttl` is never
expired, for every `now`. -/
theorem is_expired_iff (r : CacheRecord) (now : Int) :
    (r.is_expired now = true ↔
      ∃ t, r.expires = some t ∧ r.created + (t : Int) < now) ∧
    (r.expires = none → r.is_expired now = false) := by
  constructor
  · cases h : r.expires with
    | none => simp [CacheRecord.is_expired, h]
    | some t => simp [CacheRecord.is_expired, h]
  · intro h
    simp [CacheRecord.is_expired, h]

/-- Witness for C1 at a concrete record with no TTL and a large `now`. -/
theorem is_expired_iff_witness :
    CacheRecord.is_expired ⟨0, none, "v", none⟩ 1000000 = false :=
  (is_expired_iff ⟨0, none, "v", none⟩ 1000000).2 rfl

/-- Counterexample to C2 as stated: a record created at 0 with `ttl = 5`,
read exactly at `created + ttl = 5` (so "at or after `created + t`"), still
returns its value, because `is_expired` uses a strict `<`. -/
theorem get_at_exact_expiry_counterexample :
    ((⟨0, some 5, "v", none⟩ : CacheRecord).created + ((5 : Nat) : Int) ≤ 5) ∧
    CacheRecord.get ⟨0, some 5, "v", none⟩ 5 = some "v" := by
  constructor
  · decide
  · rfl

/-- Claim C2 (amended): for a record with `ttl = t`, `get` returns the stored
content for any read at or before `created + t`, and returns `none` for any
read strictly after `created + t`. -/
theorem get_expiry_boundary (r : CacheRecord) (t : Nat) (now : Int)
    (h : r.expires = some t) :
    (now ≤ r.created + (t : Int) → r.get now = some r.content) ∧
    (r.created + (t : Int) < now → r.get now = none) := by
  constructor
  · intro hle
    have hlt : ¬ (r.created + (t : Int) < now) := by omega
    simp [CacheRecord.get, CacheRecord.is_expired, h, hlt]
  · intro hlt
    simp [CacheRecord.get, CacheRecord.is_expired, h, hlt]

/-- Witness for C2 (amended) at the boundary instant and one second after. -/
theorem get_expiry_boundary_witness :
    CacheRecord.get ⟨0, some 5, "v", none⟩ 5 = some "v" ∧
    CacheRecord.get ⟨0, some 5, "v", none⟩ 6 = none :=
  ⟨(get_expiry_boundary ⟨0, some 5, "v", none⟩ 5 5 rfl).1 (by decide),
   (get_expiry_boundary ⟨0, some 5, "v", none⟩ 5 6 rfl).2 (by decide)⟩

/-- Claim C3: `set(k, v, t, c)` immediately followed by `get(k)` yields a
record whose content is exactly `v`, whose content type is exactly `c`, and
whose age at the instant of the `set` is `0`. -/
theorem set_get_roundtrip (s : CacheService) (k v : String) (t : Option Nat)
    (c : Option String) (now : Int) :
    (s.set k v t c now).get k = some ⟨now, t, v, c⟩ ∧
    CacheRecord.content ⟨now, t, v, c⟩ = v ∧
    CacheRecord.get_content_type ⟨now, t, v, c⟩ = c ∧
    CacheRecord.get_age ⟨now, t, v, c⟩ now = 0 := by
  refine ⟨?_, rfl, rfl, ?_⟩
  · simp [CacheService.get, CacheService.set]
  · simp [CacheRecord.get_age]

/-- Claim C4: the PUT filter maps the raw body through
`String::from_utf8(..).expect(..)`; on a non-UTF-8 body (here the single
byte `0xFF`) this panics (modelled `none`) instead of producing an HTTP 400
response. -/
theorem put_invalid_utf8_panics :
    cache_put (CacheService.new 128) "k" [0xFF] none none 0 = none := rfl

/-- Counterexample to C5 as stated: it is not true that for all distinct key
strings `k1 ≠ k2`, `set(k1, v1)` then `set(k2, v2)` leaves `get(k1)` at the
`v1` record — the `u64` hash identifier has fewer values than there are
keys, so by pigeonhole two distinct keys collide and the second `set`
overwrites the first key's record. -/
theorem distinct_keys_alias :
    ¬ (∀ (k1 k2 : String), k1 ≠ k2 →
        ∀ (s : CacheService) (v1 v2 : String) (t1 t2 : Option Nat)
          (c1 c2 : Option String) (now1 now2 : Int),
          ((s.set k1 v1 t1 c1 now1).set k2 v2 t2 c2 now2).get k1 =
            some ⟨now1, t1, v1, c1⟩) := by
  intro hclaim
  obtain ⟨i, j, hij, hfij⟩ :=
    Fintype.exists_ne_map_eq_of_card_lt
      (fun i : Fin (2 ^ 64 + 1) =>
        (⟨CacheService.hash (String.mk (List.replicate i.val 'a')), hash_lt _⟩ :
          Fin (2 ^ 64)))
      (by rw [Fintype.card_fin, Fintype.card_fin]; exact Nat.lt_succ_self _)
  have hk : String.mk (List.replicate i.val 'a') ≠ String.mk (List.replicate j.val 'a') := by
    intro h
    apply hij
    apply Fin.ext
    have hdata : List.replicate i.val 'a' = List.replicate j.val 'a' :=
      congrArg String.data h
    simpa using congrArg List.length hdata
  have hh : CacheService.hash (String.mk (List.replicate i.val 'a')) =
      CacheService.hash (String.mk (List.replicate j.val 'a')) :=
    congrArg Fin.val hfij
  have hres := hclaim _ _ hk (CacheService.new 128) "0" "1" none none none none 0 0
  have hres2 := get_set_set_collision (CacheService.new 128) _ _ "0" "1"
    none none none none 0 0 hh
  exact absurd (hres.symm.trans hres2) (by decide)

/-- Claim C5 (amended): two keys whose derived `u64` identifiers differ never
alias: after `set(k1, v1, ...)` then `set(k2, v2, ...)`, `get(k1)` still
returns the `v1` record, provided `hash k1 ≠ hash k2`. (The code does not
disambiguate hash collisions, so colliding keys do alias.) -/
theorem no_alias_distinct_hash (s : CacheService) (k1 k2 v1 v2 : String)
    (t1 t2 : Option Nat) (c1 c2 : Option String) (now1 now2 : Int)
    (h : CacheService.hash k1 ≠ CacheService.hash k2) :
    ((s.set k1 v1 t1 c1 now1).set k2 v2 t2 c2 now2).get k1 =
      some ⟨now1, t1, v1, c1⟩ := by
  show (if CacheService.hash k1 = CacheService.hash k2 then
          some (⟨now2, t2, v2, c2⟩ : CacheRecord)
        else if CacheService.hash k1 = CacheService.hash k1 then
          some ⟨now1, t1, v1, c1⟩
        else s.storage (CacheService.hash k1)) = some ⟨now1, t1, v1, c1⟩
  rw [if_neg h, if_pos rfl]

/-- Witness for C5 (amended): the concrete keys `"a"` and `"b"` have
different hashes and do not alias. -/
theorem no_alias_distinct_hash_witness :
    (((CacheService.new 128).set "a" "v1" none none 0).set "b" "v2" none none 0).get "a" =
      some ⟨0, none, "v1", none⟩ :=
  no_alias_distinct_hash (CacheService.new 128) "a" "b" "v1" "v2"
    none none none none 0 0 (by decide)

/-- Claim C6: `set(k, v1)` then `set(k, v2)` then `get(k)` yields exactly the
second record — new `created`, new `ttl`, new content, new content type —
for every state of the store, whether or not the first record had expired. -/
theorem overwrite_wholesale (s : CacheService) (k v1 v2 : String)
    (t1 t2 : Option Nat) (c1 c2 : Option String) (now1 now2 : Int) :
    ((s.set k v1 t1 c1 now1).set k v2 t2 c2 now2).get k =
      some ⟨now2, t2, v2, c2⟩ := by
  show (if CacheService.hash k = CacheService.hash k then
          some (⟨now2, t2, v2, c2⟩ : CacheRecord)
        else if CacheService.hash k = CacheService.hash k then
          some ⟨now1, t1, v1, c1⟩
        else s.storage (CacheService.hash k)) = some ⟨now2, t2, v2, c2⟩
  rw [if_pos rfl]

/-- Claim C7: after `gc` at a single sweep time `now`, the store holds
exactly the previously-present entries whose records were not expired at
`now`, each retained record unchanged. -/
theorem gc_exact (s : CacheService) (now : Int) (h : Nat) (r : CacheRecord) :
    (s.gc now).storage h = some r ↔
      (s.storage h = some r ∧ r.is_expired now = false) :=
  gc_storage_mem s now h r

/-- Claim C8: running `gc` twice in a row with no intervening writes leaves
the same store as running it once. -/
theorem gc_idempotent (s : CacheService) (now : Int) :
    (s.gc now).gc now = s.gc now := by
  have hst : ∀ h, ((s.gc now).gc now).storage h = (s.gc now).storage h := by
    intro h
    cases hg : (s.gc now).storage h with
    | none =>
      cases hl : ((s.gc now).gc now).storage h with
      | none => rfl
      | some r =>
        have hmem := ((gc_storage_mem (s.gc now) now h r).mp hl).1
        rw [hg] at hmem
        cases hmem
    | some r =>
      exact (gc_storage_mem (s.gc now) now h r).mpr
        ⟨hg, ((gc_storage_mem s now h r).mp hg).2⟩
  calc (s.gc now).gc now
      = ⟨((s.gc now).gc now).storage, ((s.gc now).gc now).capacity⟩ := rfl
    _ = ⟨(s.gc now).storage, (s.gc now).capacity⟩ := by rw [funext hst]; rfl
    _ = s.gc now := rfl

/-- Claim C9: `CacheService::get` does not filter by expiration: a present
but expired record is still returned by the store lookup, its absence being
signalled only by the record's value accessor (`CacheRecord::get`), which is
what makes the HTTP handler answer 404. -/
theorem store_get_unfiltered (s : CacheService) (k : String) (r : CacheRecord)
    (now : Int) (h1 : s.storage (CacheService.hash k) = some r)
    (h2 : r.is_expired now = true) :
    s.get k = some r ∧ r.get now = none ∧ cache_get s k now = (404, "", "", 0) := by
  have hget : s.get k = some r := h1
  have hval : r.get now = none := by
    simp [CacheRecord.get, h2]
  refine ⟨hget, hval, ?_⟩
  simp [cache_get, hget, hval]

/-- Witness for C9: a record set with `ttl = 1` read at time 5 is still
returned by the store lookup while its value accessor reports absence. -/
theorem store_get_unfiltered_witness :
    ((CacheService.new 128).set "a" "v" (some 1) none 0).get "a" =
        some ⟨0, some 1, "v", none⟩ ∧
      CacheRecord.get ⟨0, some 1, "v", none⟩ 5 = none ∧
      cache_get ((CacheService.new 128).set "a" "v" (some 1) none 0) "a" 5 =
        (404, "", "", 0) :=
  store_get_unfiltered ((CacheService.new 128).set "a" "v" (some 1) none 0)
    "a" ⟨0, some 1, "v", none⟩ 5 (by decide) (by decide)

/-- Claim C10: the capacity target is soft. `set` always succeeds (the key is
present afterwards) and touches no other hash slot, `gc` keeps exactly the
non-expired entries, and both `set` and the entries kept by `gc` are
independent of the capacity value — so no operation other than sweeping an
expired record ever removes an entry, and no entry count is ever refused. -/
theorem capacity_never_evicts (s : CacheService) (k v : String) (t : Option Nat)
    (c : Option String) (now : Int) (st : Nat → Option CacheRecord)
    (cap1 cap2 : Nat) :
    ((s.set k v t c now).get k).isSome = true ∧
    (∀ h, (s.set k v t c now).storage h =
        if h = CacheService.hash k then some ⟨now, t, v, c⟩ else s.storage h) ∧
    (∀ h r, (s.gc now).storage h = some r ↔
        (s.storage h = some r ∧ r.is_expired now = false)) ∧
    ((CacheService.mk st cap1).set k v t c now).storage =
        ((CacheService.mk st cap2).set k v t c now).storage ∧
    ((CacheService.mk st cap1).gc now).storage =
        ((CacheService.mk st cap2).gc now).storage := by
  refine ⟨?_, fun h => rfl, fun h r => gc_storage_mem s now h r, rfl, rfl⟩
  have hg : (s.set k v t c now).get k = some ⟨now, t, v, c⟩ := by
    show (if CacheService.hash k = CacheService.hash k then
            some (⟨now, t, v, c⟩ : CacheRecord)
          else s.storage (CacheService.hash k)) = some ⟨now, t, v, c⟩
    rw [if_pos rfl]
  rw [hg]
  rfl

end HTCache
